import Mathlib

set_option maxRecDepth 16000
set_option linter.unnecessarySeqFocus false

/-!
Verification development for the help-center chat backend: a shallow
embedding of the tool-call mediation layer (tool-action parsing and
stripping), the conversation orchestrator, and the provider failover
chain, together with theorems settling the specification claims.

Text is modelled as `List Char`; JavaScript string operations (trim,
includes, the specific regular expressions used by the source) are
embedded as executable scanners over character lists.  Fallible
operations are modelled with `Option`/`Except`.  Functions that scan a
shrinking suffix take an explicit fuel argument; callers supply
`length + 1`, which dominates the number of scanning steps.
-/

/-! ## Character classes and basic string operations -/

/-- JavaScript `\s` (whitespace) character class, restricted to the code
points that can occur in the strings this development manipulates. -/
def isJsWs (c : Char) : Bool :=
  c = ' ' || c = '\t' || c = '\n' || c = '\r' || c = '\x0b' || c = '\x0c' ||
  c = '\xa0' || c = '\u2028' || c = '\u2029' || c = '\ufeff'

/-- JavaScript `[^\S\r\n]`: whitespace that is neither CR nor LF. -/
def isSpaceTab (c : Char) : Bool :=
  isJsWs c && !(c = '\n') && !(c = '\r')

/-- The bullet glyphs `[\*\-•]` accepted by the stripping regexes. -/
def isBullet (c : Char) : Bool :=
  c = '*' || c = '-' || c = '\u2022'

/-- `String.prototype.trim`. -/
def trimL (l : List Char) : List Char :=
  ((l.dropWhile isJsWs).reverse.dropWhile isJsWs).reverse

/-- `String.prototype.includes`: `needle` occurs as a contiguous substring. -/
def hasSub (hay needle : List Char) : Bool :=
  match hay with
  | [] => needle.isEmpty
  | _ :: t => needle.isPrefixOf hay || hasSub t needle

/-- Strip a literal off the front of a list, or fail. -/
def stripLit (l lit : List Char) : Option (List Char) :=
  if lit.isPrefixOf l then some (l.drop lit.length) else none

def trimS (s : String) : String := String.mk (trimL s.data)

/-! ## JSON values and `JSON.parse`

`tryParseToolAction` calls `JSON.parse`; we embed a JSON acceptor over
character lists.  Numbers are kept as their source token (their numeric
value is never consulted).  Object fields keep all bindings in source
order; property access takes the last binding, as `JSON.parse` does for
duplicate keys. -/

inductive JsonVal where
  | jNull : JsonVal
  | jBool (b : Bool) : JsonVal
  | jNum (tok : List Char) : JsonVal
  | jStr (s : List Char) : JsonVal
  | jArr (elems : List JsonVal) : JsonVal
  | jObj (fields : List (List Char × JsonVal)) : JsonVal

/-- JSON-grammar whitespace (space, tab, LF, CR). -/
def jsonSkipWs (l : List Char) : List Char :=
  l.dropWhile (fun c => c = ' ' || c = '\t' || c = '\n' || c = '\r')

def isHexDigit (c : Char) : Bool :=
  ('0' ≤ c && c ≤ '9') || ('a' ≤ c && c ≤ 'f') || ('A' ≤ c && c ≤ 'F')

def hexVal (c : Char) : Nat :=
  if '0' ≤ c && c ≤ '9' then c.toNat - '0'.toNat
  else if 'a' ≤ c && c ≤ 'f' then c.toNat - 'a'.toNat + 10
  else if 'A' ≤ c && c ≤ 'F' then c.toNat - 'A'.toNat + 10
  else 0

/-- Body of a JSON string literal, after the opening quote.  Returns the
decoded characters and the rest of the input after the closing quote.
Raw control characters are rejected, as `JSON.parse` does. -/
def parseStrBody : List Char → Option (List Char × List Char)
  | [] => none
  | c :: t =>
    if c = '"' then some ([], t)
    else if c = '\\' then
      match t with
      | [] => none
      | e :: t2 =>
        if e = '"' then (parseStrBody t2).map (fun p => ('"' :: p.1, p.2))
        else if e = '\\' then (parseStrBody t2).map (fun p => ('\\' :: p.1, p.2))
        else if e = '/' then (parseStrBody t2).map (fun p => ('/' :: p.1, p.2))
        else if e = 'b' then (parseStrBody t2).map (fun p => ('\x08' :: p.1, p.2))
        else if e = 'f' then (parseStrBody t2).map (fun p => ('\x0c' :: p.1, p.2))
        else if e = 'n' then (parseStrBody t2).map (fun p => ('\n' :: p.1, p.2))
        else if e = 'r' then (parseStrBody t2).map (fun p => ('\r' :: p.1, p.2))
        else if e = 't' then (parseStrBody t2).map (fun p => ('\t' :: p.1, p.2))
        else if e = 'u' then
          match t2 with
          | h1 :: h2 :: h3 :: h4 :: t3 =>
            if isHexDigit h1 && isHexDigit h2 && isHexDigit h3 && isHexDigit h4 then
              let code := ((hexVal h1 * 16 + hexVal h2) * 16 + hexVal h3) * 16 + hexVal h4
              (parseStrBody t3).map (fun p => (Char.ofNat code :: p.1, p.2))
            else none
          | _ => none
        else none
    else if c.toNat < 0x20 then none
    else (parseStrBody t).map (fun p => (c :: p.1, p.2))

def isDigitCh (c : Char) : Bool := '0' ≤ c && c ≤ '9'

/-- JSON number token: `-? int frac? exp?`.  Returns the token and rest. -/
def parseNumTok (l : List Char) : Option (List Char × List Char) :=
  let (sign, l1) :=
    match l with
    | '-' :: t => (['-'], t)
    | _ => (([] : List Char), l)
  match l1 with
  | [] => none
  | c :: t =>
    if c = '0' then
      let intPart := [c]
      let rest := t
      let (frac, r2) :=
        match rest with
        | '.' :: t2 =>
          let ds := t2.takeWhile isDigitCh
          if ds.isEmpty then (none, rest) else (some ('.' :: ds), t2.dropWhile isDigitCh)
        | _ => (none, rest)
      match frac, rest with
      | none, '.' :: _ => none
      | _, _ =>
        let fracChars := frac.getD []
        let (expPart, r3) :=
          match r2 with
          | e :: t3 =>
            if e = 'e' || e = 'E' then
              let (es, t4) :=
                match t3 with
                | s :: t5 => if s = '+' || s = '-' then ([e, s], t5) else ([e], t3)
                | [] => ([e], t3)
              let ds := t4.takeWhile isDigitCh
              if ds.isEmpty then (none, r2) else (some (es ++ ds), t4.dropWhile isDigitCh)
            else (none, r2)
          | [] => (none, r2)
        match expPart, r2 with
        | none, e :: _ =>
          if e = 'e' || e = 'E' then none
          else some (sign ++ intPart ++ fracChars, r2)
        | none, [] => some (sign ++ intPart ++ fracChars, r2)
        | some ec, _ => some (sign ++ intPart ++ fracChars ++ ec, r3)
    else if isDigitCh c then
      let intPart := c :: t.takeWhile isDigitCh
      let rest := t.dropWhile isDigitCh
      let (frac, r2) :=
        match rest with
        | '.' :: t2 =>
          let ds := t2.takeWhile isDigitCh
          if ds.isEmpty then (none, rest) else (some ('.' :: ds), t2.dropWhile isDigitCh)
        | _ => (none, rest)
      match frac, rest with
      | none, '.' :: _ => none
      | _, _ =>
        let fracChars := frac.getD []
        let (expPart, r3) :=
          match r2 with
          | e :: t3 =>
            if e = 'e' || e = 'E' then
              let (es, t4) :=
                match t3 with
                | s :: t5 => if s = '+' || s = '-' then ([e, s], t5) else ([e], t3)
                | [] => ([e], t3)
              let ds := t4.takeWhile isDigitCh
              if ds.isEmpty then (none, r2) else (some (es ++ ds), t4.dropWhile isDigitCh)
            else (none, r2)
          | [] => (none, r2)
        match expPart, r2 with
        | none, e :: _ =>
          if e = 'e' || e = 'E' then none
          else some (sign ++ intPart ++ fracChars, r2)
        | none, [] => some (sign ++ intPart ++ fracChars, r2)
        | some ec, _ => some (sign ++ intPart ++ fracChars ++ ec, r3)
    else none

mutual

/-- JSON value parser; `fuel` bounds the nesting depth (callers pass the
input length, which dominates it, since every level consumes a character). -/
def parseVal : Nat → List Char → Option (JsonVal × List Char)
  | 0, _ => none
  | Nat.succ f, l =>
    match l with
    | 'n' :: 'u' :: 'l' :: 'l' :: t => some (JsonVal.jNull, t)
    | 't' :: 'r' :: 'u' :: 'e' :: t => some (JsonVal.jBool true, t)
    | 'f' :: 'a' :: 'l' :: 's' :: 'e' :: t => some (JsonVal.jBool false, t)
    | '"' :: t => (parseStrBody t).map (fun p => (JsonVal.jStr p.1, p.2))
    | '\x7b' :: t =>
      let t1 := jsonSkipWs t
      match t1 with
      | '\x7d' :: r => some (JsonVal.jObj [], r)
      | _ => (parseFields f t1).map (fun p => (JsonVal.jObj p.1, p.2))
    | '[' :: t =>
      let t1 := jsonSkipWs t
      match t1 with
      | ']' :: r => some (JsonVal.jArr [], r)
      | _ => (parseElems f t1).map (fun p => (JsonVal.jArr p.1, p.2))
    | _ => (parseNumTok l).map (fun p => (JsonVal.jNum p.1, p.2))

/-- One or more `"key": value` pairs followed by a closing brace. -/
def parseFields : Nat → List Char → Option (List (List Char × JsonVal) × List Char)
  | 0, _ => none
  | Nat.succ f, l =>
    match l with
    | '"' :: t =>
      match parseStrBody t with
      | none => none
      | some (k, r1) =>
        match jsonSkipWs r1 with
        | ':' :: r2 =>
          match parseVal f (jsonSkipWs r2) with
          | none => none
          | some (v, r3) =>
            match jsonSkipWs r3 with
            | ',' :: r4 =>
              (parseFields f (jsonSkipWs r4)).map (fun p => ((k, v) :: p.1, p.2))
            | '\x7d' :: r5 => some ([(k, v)], r5)
            | _ => none
        | _ => none
    | _ => none

/-- One or more array elements followed by a closing bracket. -/
def parseElems : Nat → List Char → Option (List JsonVal × List Char)
  | 0, _ => none
  | Nat.succ f, l =>
    match parseVal f l with
    | none => none
    | some (v, r1) =>
      match jsonSkipWs r1 with
      | ',' :: r2 => (parseElems f (jsonSkipWs r2)).map (fun p => (v :: p.1, p.2))
      | ']' :: r3 => some ([v], r3)
      | _ => none

end

/-- `JSON.parse`: a single JSON value surrounded by optional whitespace. -/
def parseJsonTop (l : List Char) : Option JsonVal :=
  let l1 := jsonSkipWs l
  match parseVal (l1.length + 1) l1 with
  | some (v, r) => if jsonSkipWs r = [] then some v else none
  | none => none

/-- Property access on a parsed object: the last binding of `key` wins,
matching `JSON.parse` duplicate-key behaviour. -/
def lookupLast (fields : List (List Char × JsonVal)) (key : List Char) : Option JsonVal :=
  fields.foldl (fun acc kv => if kv.1 = key then some kv.2 else acc) none

/-! ## Tool-action protocol: detection (`tool-action.types.ts`) -/

/-- The closed set of action identifiers (`ToolActionId`). -/
inductive ActionId where
  | aNone : ActionId
  | aFlightStatus : ActionId
  | aRouteWeather : ActionId
  | aWeatherAtFlightArrival : ActionId
deriving DecidableEq

def noneChars : List Char := "none".data
def flightStatusChars : List Char := "flight_status".data
def routeWeatherChars : List Char := "route_weather".data
def weatherArrivalChars : List Char := "weather_at_flight_arrival".data

/-- Decode an action-id string; `none` for anything outside the closed set
(`TOOL_ACTION_IDS.includes`). -/
def toActionId (s : List Char) : Option ActionId :=
  if s = flightStatusChars then some ActionId.aFlightStatus
  else if s = routeWeatherChars then some ActionId.aRouteWeather
  else if s = weatherArrivalChars then some ActionId.aWeatherAtFlightArrival
  else if s = noneChars then some ActionId.aNone
  else none

/-- A parsed tool action: the recognised id plus the full parsed object
(the source returns the whole parsed object; `params` is read off it). -/
structure ToolActionV where
  action : ActionId
  fields : List (List Char × JsonVal)

def actionKeyChars : List Char := "action".data
def paramsKeyChars : List Char := "params".data

/-- `"action"` with surrounding double quotes (the `includes` probe in
`parseToolAction`). -/
def actionQuotedChars : List Char := '"' :: actionKeyChars ++ ['"']

/-- The known action id of a parsed object's `action` property, if any
(`'action' in parsed && TOOL_ACTION_IDS.includes(parsed.action)`; a
missing key or a non-string value never matches a known id). -/
def actionFieldToId (fields : List (List Char × JsonVal)) : Option ActionId :=
  match lookupLast fields actionKeyChars with
  | some (JsonVal.jStr v) => toActionId v
  | _ => none

/-- Whether a parsed object's `action` property is a known id. -/
def actionValKnown (fields : List (List Char × JsonVal)) : Bool :=
  (actionFieldToId fields).isSome

/-- `tryParseToolAction`: trim, `JSON.parse`, accept only an object whose
`action` property is a known id. -/
def tryParseToolActionL (jsonStr : List Char) : Option ToolActionV :=
  match parseJsonTop (trimL jsonStr) with
  | some (JsonVal.jObj fields) =>
    (actionFieldToId fields).map (fun a => ToolActionV.mk a fields)
  | _ => none

/-- Positions (absolute, starting at `n`) of the opening braces of `t`,
in ascending order.  `parseToolAction` visits them in descending order,
mirroring its `lastIndexOf` loop. -/
def braceIndicesFrom : Nat → List Char → List Nat
  | _, [] => []
  | n, c :: t =>
    if c = '\x7b' then n :: braceIndicesFrom (n + 1) t
    else braceIndicesFrom (n + 1) t

def braceIndices (t : List Char) : List Nat := braceIndicesFrom 0 t

/-- Brace-depth counting from the start of `l` (which the caller positions
at an opening brace): the index of the first character at which the depth
returns to zero, or `none` if it never does.  The depth is an integer, as
in the source loop. -/
def firstBalancedEndAux : List Char → Nat → Int → Option Nat
  | [], _, _ => none
  | c :: t, idx, depth =>
    if c = '\x7b' then firstBalancedEndAux t (idx + 1) (depth + 1)
    else if c = '\x7d' then
      if depth - 1 = 0 then some idx
      else firstBalancedEndAux t (idx + 1) (depth - 1)
    else firstBalancedEndAux t (idx + 1) depth

def firstBalancedEnd (l : List Char) : Option Nat :=
  firstBalancedEndAux l 0 0

/-- One candidate of the extraction loop: brace-depth counting from
position `i`, then `tryParseToolAction` on the candidate slice. -/
def candidateAt (t : List Char) (i : Nat) : Option ToolActionV :=
  match firstBalancedEnd (t.drop i) with
  | some e => tryParseToolActionL ((t.drop i).take (e + 1))
  | none => none

/-- Try candidate start positions in the given order, returning the first
successful parse. -/
def scanCandidates (t : List Char) : List Nat → Option ToolActionV
  | [] => none
  | i :: rest =>
    match candidateAt t i with
    | some r => some r
    | none => scanCandidates t rest

/-- `parseToolAction`: whole-string fast path, cheap `"action"` rejection,
then right-to-left embedded extraction. -/
def parseToolActionL (raw : List Char) : Option ToolActionV :=
  match tryParseToolActionL (trimL raw) with
  | some r => some r
  | none =>
    if hasSub (trimL raw) actionQuotedChars then
      scanCandidates (trimL raw) (braceIndices (trimL raw)).reverse
    else none

def parseToolAction (s : String) : Option ToolActionV :=
  parseToolActionL s.data

/-! ## Tool-action protocol: stripping (`stripToolJsonFromReply`)

Each regular expression of the source is embedded as a dedicated scanner.
The patterns only combine single-character classes, literals, one ordered
alternation whose branches start with distinct characters, and one lazy
any-character gap ending at the first closing brace, so greedy matching
with the usual backtracking collapses to the deterministic scans below.
Global `replace` is leftmost, non-overlapping, resuming after each match,
exactly as the scanners proceed. -/

/-- Smart/curly-quote normalisation (step 2 of the source). -/
def normalizeQuote (c : Char) : Char :=
  if c = '\u201c' then '"'
  else if c = '\u201d' then '"'
  else if c = '\u2018' then '\x27'
  else if c = '\u2019' then '\x27'
  else c

def idAltChars : List (List Char) :=
  [flightStatusChars, routeWeatherChars, weatherArrivalChars, noneChars]

/-- First alternative of an ordered alternation that strips off the front. -/
def stripAnyLit (l : List Char) : List (List Char) → Option (List Char)
  | [] => none
  | lit :: rest =>
    match stripLit l lit with
    | some r => some r
    | none => stripAnyLit l rest

/-- A match of `toolJsonPattern` starting at the head of `l`:
`[^\S\r\n]*[\*\-•]?\s*\{\s*"action"\s*:\s*"(?:ids)"[\s\S]*?\}\s*`.
Returns the input remaining after the match. -/
def toolJsonMatch (l : List Char) : Option (List Char) :=
  let l1 := l.dropWhile isSpaceTab
  let l2 :=
    match l1 with
    | c :: t => if isBullet c then t else l1
    | [] => l1
  match l2.dropWhile isJsWs with
  | '\x7b' :: t4 =>
    match stripLit (t4.dropWhile isJsWs) actionQuotedChars with
    | some l6 =>
      match l6.dropWhile isJsWs with
      | ':' :: t8 =>
        match t8.dropWhile isJsWs with
        | '"' :: t10 =>
          match stripAnyLit t10 idAltChars with
          | some l11 =>
            match l11 with
            | '"' :: t12 =>
              match t12.dropWhile (fun c => !(c = '\x7d')) with
              | _ :: t13 => some (t13.dropWhile isJsWs)
              | [] => none
            | _ => none
          | none => none
        | _ => none
      | _ => none
    | none => none
  | _ => none

/-- Global replacement of `toolJsonPattern` by a single space. -/
def replaceToolJson : Nat → List Char → List Char
  | 0, l => l
  | _, [] => []
  | Nat.succ f, c :: t =>
    match toolJsonMatch (c :: t) with
    | some rem => ' ' :: replaceToolJson f rem
    | none => c :: replaceToolJson f t

/-- One pass of step 3: replace all pattern occurrences, then trim. -/
def stripIterate (t : List Char) : List Char :=
  trimL (replaceToolJson (t.length + 1) t)

/-- The do/while loop of step 3, iterated to its fixpoint.  A changing
iteration shrinks the text (every match is at least seventeen characters
and is replaced by one), so `length + 1` rounds of fuel always reach the
fixpoint. -/
def stripLoop : Nat → List Char → List Char
  | 0, t => t
  | Nat.succ f, t =>
    let t2 := stripIterate t
    if t2 = t then t else stripLoop f t2

def fence3 : List Char := ['\x60', '\x60', '\x60']
def jsonLitChars : List Char := "json".data

/-- Tail `\s*\n?\s*` followed by a closing fence and trailing `\s*`. -/
def fencePairTail (l : List Char) : Option (List Char) :=
  match stripLit (l.dropWhile isJsWs) fence3 with
  | some l5 => some (l5.dropWhile isJsWs)
  | none => none

/-- A match of the empty-fence-pair pattern
`\s*```(?:json)?\s*\n?\s*```\s*` at the head of `l`. -/
def fencePairMatch (l : List Char) : Option (List Char) :=
  match stripLit (l.dropWhile isJsWs) fence3 with
  | some l2 =>
    match stripLit l2 jsonLitChars with
    | some l3 =>
      match fencePairTail l3 with
      | some r => some r
      | none => fencePairTail l2
    | none => fencePairTail l2
  | none => none

/-- Global removal of empty fence pairs. -/
def fencePairReplace : Nat → List Char → List Char
  | 0, l => l
  | _, [] => []
  | Nat.succ f, c :: t =>
    match fencePairMatch (c :: t) with
    | some rem => fencePairReplace f rem
    | none => c :: fencePairReplace f t

/-- Whether `\s*```(?:json)?\s*$` (end-of-string anchor) matches here. -/
def fenceEndMatches (l : List Char) : Bool :=
  match stripLit (l.dropWhile isJsWs) fence3 with
  | some l2 =>
    (match stripLit l2 jsonLitChars with
     | some l3 => (l3.dropWhile isJsWs).isEmpty
     | none => false) || (l2.dropWhile isJsWs).isEmpty
  | none => false

/-- Removal of a trailing orphan fence. -/
def fenceEndReplace : Nat → List Char → List Char
  | 0, l => l
  | _, [] => []
  | Nat.succ f, c :: t =>
    if fenceEndMatches (c :: t) then [] else c :: fenceEndReplace f t

/-- Removal of a leading orphan fence (`^\s*```(?:json)?\s*\n?`). -/
def fenceStartStrip (l : List Char) : List Char :=
  match stripLit (l.dropWhile isJsWs) fence3 with
  | some l2 =>
    match stripLit l2 jsonLitChars with
    | some l3 => l3.dropWhile isJsWs
    | none => l2.dropWhile isJsWs
  | none => l

/-- `\s{2,}` globally replaced by one space. -/
def collapseWs : Nat → List Char → List Char
  | 0, l => l
  | _, [] => []
  | Nat.succ f, c :: t =>
    match t with
    | c2 :: _ =>
      if isJsWs c && isJsWs c2 then ' ' :: collapseWs f (t.dropWhile isJsWs)
      else c :: collapseWs f t
    | [] => [c]

/-- A match of the bullet-only-line pattern `^[^\S\r\n]*[\*\-•]+\s*$`
(multiline) at the head of `l`, which the caller has positioned at a line
start.  The trailing `\s*` backtracks to the last line end it can reach:
everything up to the last newline of the following whitespace run, or the
whole run when it touches the end of the text. -/
def bulletLineMatch (l : List Char) : Option (List Char) :=
  let l1 := l.dropWhile isSpaceTab
  match l1 with
  | c :: _ =>
    if isBullet c then
      let l2 := l1.dropWhile isBullet
      let w := l2.takeWhile isJsWs
      let rest := l2.dropWhile isJsWs
      if rest.isEmpty then some []
      else
        let wr := w.reverse
        match wr.dropWhile (fun ch => !(ch = '\n')) with
        | '\n' :: _ =>
          some ('\n' :: ((wr.takeWhile (fun ch => !(ch = '\n'))).reverse ++ rest))
        | _ => none
    else none
  | [] => none

/-- Global removal of bullet-only lines.  No match can begin at the
newline a previous match stopped in front of (the pattern cannot consume
a leading newline), so the line-start flag is simply re-armed by it. -/
def bulletLineRemove : Nat → Bool → List Char → List Char
  | 0, _, l => l
  | _, _, [] => []
  | Nat.succ f, atStart, c :: t =>
    match (if atStart then bulletLineMatch (c :: t) else none) with
    | some rem => bulletLineRemove f false rem
    | none => c :: bulletLineRemove f (c = '\n') t

/-- A match of `\n\s*\n\s*\n` at the head of `l`: a newline whose
following whitespace run contains at least two more newlines; the greedy
inner gaps end the match at the last newline of the run. -/
def tripleNlMatch (l : List Char) : Option (List Char) :=
  match l with
  | '\n' :: t =>
    let w := t.takeWhile isJsWs
    let rest := t.dropWhile isJsWs
    if 2 ≤ (w.filter (fun ch => ch = '\n')).length then
      some ((w.reverse.takeWhile (fun ch => !(ch = '\n'))).reverse ++ rest)
    else none
  | _ => none

/-- Global replacement of `\n\s*\n\s*\n` by two newlines. -/
def tripleNlReplace : Nat → List Char → List Char
  | 0, l => l
  | _, [] => []
  | Nat.succ f, c :: t =>
    match tripleNlMatch (c :: t) with
    | some rem => '\n' :: '\n' :: tripleNlReplace f rem
    | none => c :: tripleNlReplace f t

def actionWordChars : List Char := "action".data

/-- Steps 2–5 of `stripToolJsonFromReply`: normalisation, the removal
loop, fence cleanup and whitespace cleanup — the value called `t` at the
point of the final fallback check. -/
def stripStage (reply : List Char) : List Char :=
  let normalized := reply.map normalizeQuote
  let t1 := stripLoop (normalized.length + 1) normalized
  let t2 := trimL (fencePairReplace (t1.length + 1) t1)
  let t3 := trimL (fenceEndReplace (t2.length + 1) t2)
  let t4 := trimL (fenceStartStrip t3)
  let t5 := trimL (collapseWs (t4.length + 1) t4)
  let t6 := trimL (bulletLineRemove (t5.length + 1) true t5)
  trimL (tripleNlReplace (t6.length + 1) t6)

/-- `stripToolJsonFromReply`: quick exit when `action` does not occur,
otherwise the cleanup pipeline with the non-empty fallback of step 6. -/
def stripToolJsonL (reply : List Char) : List Char :=
  if hasSub reply actionWordChars then
    if stripStage reply = [] then trimL reply else stripStage reply
  else trimL reply

def stripToolJsonFromReply (s : String) : String :=
  String.mk (stripToolJsonL s.data)

/-- Whether some substring of `s` is a syntactically valid tool-action
JSON object: it starts at an opening brace, `JSON.parse` accepts it, and
its `action` property is one of the known ids. -/
def containsKnownActionJson (s : List Char) : Bool :=
  (List.range s.length).any (fun i =>
    if s.get? i = some '\x7b' then
      (List.range (s.length - i)).any (fun n =>
        match parseJsonTop ((s.drop i).take (n + 1)) with
        | some (JsonVal.jObj fields) => actionValKnown fields
        | _ => false)
    else false)

/-! ## Conversation data model and orchestrator (`chat.service.ts`)

The two system-prompt texts are opaque configuration strings (per the
specification) and are carried as parameters.  The LLM backend and the
lookup collaborators are abstract functions: backends may fail
(`Except`), collaborators never throw and return summary records.  The
orchestrator is instrumented with a trace of the backend and
collaborator calls it performs, in order. -/

inductive Role where
  | system : Role
  | user : Role
  | assistant : Role
deriving DecidableEq

structure ChatMsg where
  role : Role
  content : String
deriving DecidableEq

/-- `ChatRequestDto`: the `messages` field may be absent. -/
structure ChatRequest where
  messages : Option (List ChatMsg)

structure ChatReply where
  reply : String
deriving DecidableEq

/-- The two prompt constants of `ota-system-prompt.ts`, kept opaque. -/
structure Prompts where
  base : String
  tools : String

def MAX_MESSAGES : Nat := 12

/-- `arr.slice(-n)`: the last `n` elements (all of them when shorter). -/
def lastN (n : Nat) (l : List ChatMsg) : List ChatMsg :=
  l.drop (l.length - n)

/-- `[msgs[0], ...msgs.slice(-MAX_MESSAGES)]` on a non-empty list. -/
def windowed (msgs : List ChatMsg) : List ChatMsg :=
  match msgs with
  | [] => []
  | m :: _ => m :: lastN MAX_MESSAGES msgs

def sysToolsMsg (P : Prompts) : ChatMsg := ChatMsg.mk Role.system P.tools
def sysBaseMsg (P : Prompts) : ChatMsg := ChatMsg.mk Role.system P.base

/-- Phase-1 conversation: tools prompt first, then the caller history. -/
def phase1Conv (P : Prompts) (userMessages : List ChatMsg) : List ChatMsg :=
  windowed (sysToolsMsg P :: userMessages)

/-- The natural-language-only suffix appended by
`requestNaturalLanguageReply`. -/
def nlSuffix : String :=
  "\n\nIMPORTANT: Always reply in natural, friendly language. Never output JSON, code blocks, or raw data structures."

def nlSysMsg (P : Prompts) : ChatMsg :=
  ChatMsg.mk Role.system (P.base ++ nlSuffix)

/-- Conversation built by `requestNaturalLanguageReply` (Phase 1b). -/
def nlConv (P : Prompts) (userMessages : List ChatMsg) : List ChatMsg :=
  windowed (nlSysMsg P :: userMessages)

/-- Phase-2 grounding instruction (verbatim from the source). -/
def finalUserInstr : String :=
  "Using the data above, reply to the customer in natural language (short, clear, friendly). Do not repeat raw JSON or technical labels."

/-- Phase-2 conversation: base prompt, history, tool result, instruction. -/
def phase2Conv (P : Prompts) (userMessages : List ChatMsg) (toolResultSummary : String) :
    List ChatMsg :=
  windowed (sysBaseMsg P ::
    (userMessages ++
      [ChatMsg.mk Role.assistant toolResultSummary, ChatMsg.mk Role.user finalUserInstr]))

/-- `looksLikeJson`: trimmed text starts with a brace and mentions
`action`. -/
def looksLikeJson (text : String) : Bool :=
  let t := trimL text.data
  (match t with
   | '\x7b' :: _ => true
   | _ => false) && hasSub t actionWordChars

/-- `toolAction.params ?? {}` on the parsed object. -/
def toolParams (ta : ToolActionV) : JsonVal :=
  (lookupLast ta.fields paramsKeyChars).getD (JsonVal.jObj [])

/-- Result of `AviationstackService.getFlightStatus` (never throws). -/
structure FlightResult where
  summary : String
  arrivalAirport : Option String

/-- Result of the Open-Meteo lookups (never throw). -/
structure WeatherResult where
  summary : String

/-- The external lookup collaborators consumed by the orchestrator. -/
structure Collaborators where
  getFlightStatus : JsonVal → FlightResult
  getRouteWeather : JsonVal → WeatherResult
  getWeatherForPlace : String → WeatherResult

/-- One entry of the orchestration trace. -/
inductive ChatEvent where
  | llmCall (conv : List ChatMsg) : ChatEvent
  | flightLookup (params : JsonVal) : ChatEvent
  | routeWeatherLookup (params : JsonVal) : ChatEvent
  | placeWeatherLookup (place : String) : ChatEvent

/-- Phase 2: invoke the backend on the grounding conversation and strip. -/
def finishPhase2 (P : Prompts) (llm : List ChatMsg → Except String String)
    (userMessages : List ChatMsg) (toolResultSummary : String) (evs : List ChatEvent) :
    Except String ChatReply × List ChatEvent :=
  let conv := phase2Conv P userMessages toolResultSummary
  match llm conv with
  | Except.error e => (Except.error e, evs ++ [ChatEvent.llmCall conv])
  | Except.ok r =>
    (Except.ok (ChatReply.mk (stripToolJsonFromReply r)), evs ++ [ChatEvent.llmCall conv])

/-- Phase 1b: `requestNaturalLanguageReply` and strip, after `before`. -/
def finishNaturalLanguage (P : Prompts) (llm : List ChatMsg → Except String String)
    (userMessages : List ChatMsg) (evs : List ChatEvent) :
    Except String ChatReply × List ChatEvent :=
  let conv := nlConv P userMessages
  match llm conv with
  | Except.error e => (Except.error e, evs ++ [ChatEvent.llmCall conv])
  | Except.ok r =>
    (Except.ok (ChatReply.mk (stripToolJsonFromReply r)), evs ++ [ChatEvent.llmCall conv])

/-- `ChatService.handleChat`, instrumented with its call trace. -/
def handleChatT (P : Prompts) (llm : List ChatMsg → Except String String)
    (C : Collaborators) (body : ChatRequest) :
    Except String ChatReply × List ChatEvent :=
  let userMessages := body.messages.getD []
  let conv1 := phase1Conv P userMessages
  match llm conv1 with
  | Except.error e => (Except.error e, [ChatEvent.llmCall conv1])
  | Except.ok firstReply =>
    match parseToolAction firstReply with
    | none =>
      if looksLikeJson firstReply then
        finishNaturalLanguage P llm userMessages [ChatEvent.llmCall conv1]
      else
        (Except.ok (ChatReply.mk (stripToolJsonFromReply firstReply)),
         [ChatEvent.llmCall conv1])
    | some ta =>
      match ta.action with
      | ActionId.aNone =>
        finishNaturalLanguage P llm userMessages [ChatEvent.llmCall conv1]
      | ActionId.aFlightStatus =>
        let ps := toolParams ta
        let result := C.getFlightStatus ps
        finishPhase2 P llm userMessages
          ("TOOL_RESULT flight_status: " ++ result.summary)
          [ChatEvent.llmCall conv1, ChatEvent.flightLookup ps]
      | ActionId.aRouteWeather =>
        let ps := toolParams ta
        let result := C.getRouteWeather ps
        finishPhase2 P llm userMessages
          ("TOOL_RESULT route_weather: " ++ result.summary)
          [ChatEvent.llmCall conv1, ChatEvent.routeWeatherLookup ps]
      | ActionId.aWeatherAtFlightArrival =>
        let ps := toolParams ta
        let flightResult := C.getFlightStatus ps
        match flightResult.arrivalAirport with
        | none =>
          finishPhase2 P llm userMessages
            ("TOOL_RESULT weather_at_flight_arrival: " ++ flightResult.summary)
            [ChatEvent.llmCall conv1, ChatEvent.flightLookup ps]
        | some ap =>
          let weatherResult := C.getWeatherForPlace ap
          finishPhase2 P llm userMessages
            ("TOOL_RESULT weather_at_flight_arrival: " ++ flightResult.summary ++
             " Weather at arrival (" ++ ap ++ "): " ++ weatherResult.summary)
            [ChatEvent.llmCall conv1, ChatEvent.flightLookup ps,
             ChatEvent.placeWeatherLookup ap]

/-! ## Provider failover chain (`multi-llm.client.ts`) -/

/-- One configured backend of the chain. -/
structure Backend where
  id : String
  gen : List ChatMsg → Except String String

/-- `MultiLlmClient.generateReply`: try each provider in order, return the
first success, remember the last error, throw it (or the generic message
on an empty provider list) when all fail.  Also returns the ids of the
providers actually attempted, in order. -/
def multiGenerateReply : List Backend → List ChatMsg → Except String String × List String
  | [], _ => (Except.error ("All LLM providers failed."), [])
  | [b], c =>
    match b.gen c with
    | Except.ok r => (Except.ok r, [b.id])
    | Except.error e => (Except.error e, [b.id])
  | b :: b2 :: rest, c =>
    match b.gen c with
    | Except.ok r => (Except.ok r, [b.id])
    | Except.error _ =>
      let p := multiGenerateReply (b2 :: rest) c
      (p.1, b.id :: p.2)

/-- `MultiLlmClient.getOrderedProviders`: the priority list derived from
the configured primary provider (ids only; the mock backend is last in
every networked configuration). -/
def orderedProviderIds (primary : String) : List String :=
  if primary = "freeflow" then ["freeflow", "gemini", "openai", "mock"]
  else if primary = "openai" then ["openai", "gemini", "mock"]
  else if primary = "mock" then ["mock"]
  else ["gemini", "openai", "mock"]

/-! ## Networked backend clients: blank replies are failures -/

def failedGenMsg : String := "Failed to generate a reply."

structure GeminiPart where
  text : String

structure GeminiContentR where
  parts : Option (List GeminiPart)

structure GeminiCandidate where
  content : Option GeminiContentR

/-- The payload shape read from a Gemini response. -/
structure GeminiData where
  candidates : Option (List GeminiCandidate)

/-- `candidate?.content?.parts?.[0]?.text ?? candidate?.content?.parts?.map(p => p.text).join('\n')`. -/
def geminiRawText (d : GeminiData) : Option String :=
  let partsOpt := ((d.candidates.bind List.head?).bind GeminiCandidate.content).bind
    GeminiContentR.parts
  match (partsOpt.bind List.head?).map GeminiPart.text with
  | some t => some t
  | none => partsOpt.map (fun ps => String.intercalate ("\n") (ps.map GeminiPart.text))

/-- `GeminiLlmClient.generateReply` after the HTTP response arrives: the
missing-key guard, text extraction, and the blank check whose exception
the surrounding catch rethrows as the generic failure. -/
def geminiGenerateReply (apiKey : String) (d : GeminiData) : Except String String :=
  if apiKey = "" then
    Except.error ("Gemini is not configured (missing GEMINI_API_KEY).")
  else if ((geminiRawText d).map trimS).getD ("") = "" then Except.error failedGenMsg
  else Except.ok (((geminiRawText d).map trimS).getD (""))

structure OpenAiMsgR where
  content : Option String

structure OpenAiChoice where
  message : Option OpenAiMsgR

/-- The payload shape read from an OpenAI response. -/
structure OpenAiData where
  choices : Option (List OpenAiChoice)

/-- `response.data?.choices?.[0]?.message?.content?.trim() ?? ''`. -/
def openAiContent (d : OpenAiData) : String :=
  ((((d.choices.bind List.head?).bind OpenAiChoice.message).bind OpenAiMsgR.content).map
    trimS).getD ("")

/-- `OpenAiLlmClient.generateReply` after the HTTP response arrives. -/
def openAiGenerateReply (apiKey : String) (d : OpenAiData) : Except String String :=
  if apiKey = "" then
    Except.error ("LLM is not configured (missing OPENAI_API_KEY).")
  else if openAiContent d = "" then Except.error failedGenMsg
  else Except.ok (openAiContent d)

/-- The payload shape read from a FreeFlow response. -/
structure FreeflowData where
  reply : Option String

/-- `response.data?.reply?.trim() ?? ''`. -/
def freeflowContent (d : FreeflowData) : String :=
  ((d.reply.map trimS)).getD ("")

/-- `FreeflowLlmClient.generateReply` after the HTTP response arrives. -/
def freeflowGenerateReply (d : FreeflowData) : Except String String :=
  if freeflowContent d = "" then Except.error failedGenMsg
  else Except.ok (freeflowContent d)

/-- Whether an `Except` result is a success. -/
def exIsOk (e : Except String String) : Bool :=
  match e with
  | Except.ok _ => true
  | Except.error _ => false

/-! ## Concrete instances used by the claim theorems -/

/-- A reply mixing prose with near-tool JSON, a lone bullet line sitting
between the opening brace and the `action` key. -/
def c1FailingInput : String := "x \x7b\n*\n\"action\":\"none\"\x7d y"

/-- What the stripper returns on `c1FailingInput`: the bullet-line
cleanup has deleted the `*`, splicing a valid tool-JSON object together. -/
def c1Output : String := "x \x7b\n\n\"action\":\"none\"\x7d y"

/-- Same shape with a `-` bullet, for the idempotence claim. -/
def c2FailingInput : String := "q \x7b\n-\n\"action\":\"none\"\x7d r"

/-- A reply that is exactly one tool-JSON object. -/
def c3Input : String := "\x7b\"action\":\"none\"\x7d"

/-- A JSON object with an unknown action id. -/
def c4Rejected : String := "\x7b\"action\":\"delete_booking\"\x7d"

/-- A JSON object whose own action id is unknown but which nests an
object with a known one. -/
def c4CexInput : String := "\x7b\"action\":\"bad\",\"p\":\x7b\"action\":\"none\"\x7d\x7d"

/-- The parse of `c4CexInput`. -/
def c4CexFields : List (List Char × JsonVal) :=
  [(actionKeyChars, JsonVal.jStr ("bad").data),
   (("p").data, JsonVal.jObj [(actionKeyChars, JsonVal.jStr noneChars)])]

/-- A valid tool-action JSON object one of whose string values contains
an unbalanced closing brace. -/
def c5CexJson : String := "\x7b\"action\":\"none\",\"params\":\x7b\"x\":\"\x7d\"\x7d\x7d"

/-- Prose followed by `c5CexJson`. -/
def c5CexText : String := "Hi\n" ++ c5CexJson

/-- The specification's embedded-extraction example: its JSON part. -/
def c5ExampleJson : String :=
  "\x7b\"action\":\"route_weather\",\"params\":\x7b\"origin_city\":\"Barcelona\",\"destination_city\":\"Dublin\"\x7d\x7d"

/-- The specification's embedded-extraction example: prose plus JSON. -/
def c5ExampleText : String := "Sure, one moment.\n" ++ c5ExampleJson

/-- Parse result of `c5ExampleJson`. -/
def c5ExampleAction : ToolActionV :=
  ToolActionV.mk ActionId.aRouteWeather
    [(actionKeyChars, JsonVal.jStr routeWeatherChars),
     (paramsKeyChars, JsonVal.jObj
       [(("origin_city").data, JsonVal.jStr ("Barcelona").data),
        (("destination_city").data, JsonVal.jStr ("Dublin").data)])]

def c6Backend1 : Backend := Backend.mk ("gemini") (fun _ => Except.error ("gemini down"))
def c6Backend2 : Backend := Backend.mk ("openai") (fun _ => Except.error ("openai down"))
def c6Backend3 : Backend := Backend.mk ("mock") (fun _ => Except.ok ("ok"))

def c8P : Prompts := Prompts.mk ("BASE") ("TOOLS")

/-- An oracle backend that answers Phase 1 with the `none` marker and any
other conversation with prose. -/
def c8Llm : List ChatMsg → Except String String :=
  fun conv =>
    if conv = phase1Conv c8P [] then Except.ok ("\x7b\"action\":\"none\"\x7d")
    else Except.ok ("Happy to help!")

/-- Collaborators whose calls would be visible in the trace. -/
def quietCollab : Collaborators :=
  Collaborators.mk (fun _ => FlightResult.mk ("") none)
    (fun _ => WeatherResult.mk ("")) (fun _ => WeatherResult.mk (""))

def c9P : Prompts := Prompts.mk ("BASE") ("TOOLS")
def c9Short : List ChatMsg := [ChatMsg.mk Role.user ("hi"), ChatMsg.mk Role.assistant ("hello")]
def c9LongU : List ChatMsg := List.replicate 12 (ChatMsg.mk Role.user ("m"))

/-! ## Claim theorems -/

/-- C1: the claim states that `stripToolJsonFromReply` output never
contains a tool-action JSON fragment with a known action id.  The code
violates this: on `c1FailingInput` the bullet-only-line cleanup (step 5),
which runs after the tool-JSON removal loop (step 3), deletes the bullet
standing between the opening brace and the `action` key, so the returned
text contains the syntactically valid tool-JSON object
`{"action":"none"}` (with interior newlines).  This theorem evaluates the
stripper at the failing input and checks the leaked fragment. -/
theorem c1_strip_leaks_spliced_tool_json :
    stripToolJsonFromReply c1FailingInput = c1Output ∧
    containsKnownActionJson c1Output.data = true := by
  exact ⟨by decide, by decide⟩

/-- C2: the claim states that `stripToolJsonFromReply` is idempotent.
The code violates this: on `c2FailingInput` one application returns text
still containing a tool-JSON object (re-created by the bullet-line
cleanup), which a second application then removes. -/
theorem c2_strip_not_idempotent :
    stripToolJsonFromReply (stripToolJsonFromReply c2FailingInput) ≠
      stripToolJsonFromReply c2FailingInput := by
  decide

/-- C3: for every reply whose trimmed form is non-empty, the stripper
returns a non-empty text, and whenever the removal pipeline blanks
everything it falls back to the original trimmed reply. -/
theorem c3_nonempty_fallback (T : List Char) (h : trimL T ≠ []) :
    stripToolJsonL T ≠ [] ∧ (stripStage T = [] → stripToolJsonL T = trimL T) := by
  unfold stripToolJsonL
  split_ifs with h1 h2
  · exact ⟨h, fun _ => rfl⟩
  · exact ⟨h2, fun hh => absurd hh h2⟩
  · exact ⟨h, fun _ => rfl⟩

/-- C3 witness: on the all-JSON reply `{"action":"none"}` the pipeline
blanks everything and the stripper returns the original trimmed input. -/
theorem c3_witness :
    trimL c3Input.data ≠ [] ∧ stripToolJsonL c3Input.data = c3Input.data := by
  have h : trimL c3Input.data ≠ [] := by decide
  refine ⟨h, ?_⟩
  have h2 := (c3_nonempty_fallback c3Input.data h).2 (by decide)
  rw [h2]
  decide

/-- C4 counterexample: the claim, as stated, quantifies over every input
that parses as a JSON object with an unknown `action`.  `c4CexInput`
parses exactly so (`action` is `"bad"`), yet `parseToolAction` is not
absent on it: the right-to-left extraction finds the nested
`{"action":"none"}` object. -/
theorem c4_counterexample :
    parseJsonTop (trimL c4CexInput.data) = some (JsonVal.jObj c4CexFields) ∧
    actionValKnown c4CexFields = false ∧
    (parseToolAction c4CexInput).isSome = true := by
  exact ⟨rfl, rfl, rfl⟩

/-- C4 (amended): whole-string parsing — `tryParseToolAction` — returns
absent for every input parsing as a JSON object whose `action` property
is not a known id, and on `'{"action":"delete_booking"}'` (which has no
nested known-action object) `parseToolAction` is also absent. -/
theorem c4_unknown_action_rejected :
    (∀ s fields, parseJsonTop (trimL s) = some (JsonVal.jObj fields) →
      actionValKnown fields = false → tryParseToolActionL s = none) ∧
    parseToolAction c4Rejected = none := by
  constructor
  · intro s fields hp hk
    unfold actionValKnown at hk
    cases ha : actionFieldToId fields with
    | some a => rw [ha] at hk; simp at hk
    | none =>
      unfold tryParseToolActionL
      rw [hp]
      show (actionFieldToId fields).map (fun a => ToolActionV.mk a fields) = none
      rw [ha]
      rfl
  · rfl

/-- C4 witness: the amended universal statement applied to the
`delete_booking` object. -/
theorem c4_witness : tryParseToolActionL c4Rejected.data = none :=
  c4_unknown_action_rejected.1 c4Rejected.data
    [(actionKeyChars, JsonVal.jStr ("delete_booking").data)] rfl rfl

theorem braceIndicesFrom_append (p J : List Char) :
    ∀ n, braceIndicesFrom n (p ++ J) =
      braceIndicesFrom n p ++ braceIndicesFrom (n + p.length) J := by
  induction p with
  | nil => intro n; simp [braceIndicesFrom]
  | cons c t ih =>
    intro n
    simp only [List.cons_append, braceIndicesFrom, List.length_cons, List.append_eq]
    rw [ih (n + 1)]
    have hlen : n + 1 + t.length = n + (t.length + 1) := by omega
    rw [hlen]
    split <;> simp

theorem braceIndicesFrom_le (t : List Char) :
    ∀ n i, i ∈ braceIndicesFrom n t → n ≤ i := by
  induction t with
  | nil => intro n i h; simp [braceIndicesFrom] at h
  | cons c r ih =>
    intro n i h
    simp only [braceIndicesFrom] at h
    by_cases hc : c = '\x7b'
    · rw [if_pos hc] at h
      rcases List.mem_cons.mp h with h1 | h2
      · omega
      · have := ih (n + 1) i h2; omega
    · rw [if_neg hc] at h
      have := ih (n + 1) i h; omega

theorem scanCandidates_append (t : List Char) (l1 l2 : List Nat)
    (h : ∀ i ∈ l1, candidateAt t i = none) :
    scanCandidates t (l1 ++ l2) = scanCandidates t l2 := by
  induction l1 with
  | nil => rfl
  | cons j r ih =>
    simp only [List.cons_append, scanCandidates]
    rw [h j (List.mem_cons_self j r)]
    exact ih (fun i hi => h i (List.mem_cons_of_mem j hi))

/-- C5 counterexample: `c5CexText` is prose followed by a syntactically
valid tool-action JSON object with the known id `none`, yet
`parseToolAction` finds nothing: the brace-depth count from the object's
opening brace stops at the `}` inside one of its string values, so no
candidate slice parses. -/
theorem c5_counterexample :
    (tryParseToolActionL c5CexJson.data).isSome = true ∧
    parseToolAction c5CexText = none := by
  exact ⟨rfl, rfl⟩

/-- C5 (amended): on prose followed by a valid tool-action JSON object,
`parseToolAction` extracts that object's action provided the naive
brace-depth count over the object first returns to zero exactly at its
last character (true whenever its string literals contain no brace), no
brace-start candidate inside the object yields a known action itself,
the text contains the literal substring `"action"`, the text carries no
outer whitespace, and the whole text is not accepted by the whole-string
fast path. -/
theorem c5_embedded_extraction (p J : List Char) (a : ToolActionV)
    (htrim : trimL (p ++ J) = p ++ J)
    (hwhole : tryParseToolActionL (p ++ J) = none)
    (hinc : hasSub (p ++ J) actionQuotedChars = true)
    (hhead : J.head? = some '\x7b')
    (hscan : firstBalancedEnd J = some (J.length - 1))
    (hJ : tryParseToolActionL J = some a)
    (hinner : ∀ i ∈ braceIndices (p ++ J), p.length < i → candidateAt (p ++ J) i = none) :
    parseToolActionL (p ++ J) = some a := by
  obtain ⟨J', rfl⟩ : ∃ J2, J = '\x7b' :: J2 := by
    cases J with
    | nil => simp at hhead
    | cons c t =>
      simp only [List.head?_cons, Option.some.injEq] at hhead
      exact ⟨t, by rw [hhead]⟩
  have hbi : braceIndices (p ++ '\x7b' :: J') =
      braceIndices p ++ p.length :: braceIndicesFrom (p.length + 1) J' := by
    unfold braceIndices
    rw [braceIndicesFrom_append p _ 0]
    simp [braceIndicesFrom]
  have hbig : ∀ i ∈ (braceIndicesFrom (p.length + 1) J').reverse,
      candidateAt (p ++ '\x7b' :: J') i = none := by
    intro i hi
    rw [List.mem_reverse] at hi
    have h1 : p.length + 1 ≤ i := braceIndicesFrom_le J' (p.length + 1) i hi
    have h2 : i ∈ braceIndices (p ++ '\x7b' :: J') := by
      rw [hbi]
      exact List.mem_append_right _ (List.mem_cons_of_mem _ hi)
    exact hinner i h2 (by omega)
  have hcand : candidateAt (p ++ '\x7b' :: J') p.length = some a := by
    unfold candidateAt
    rw [List.drop_left p ('\x7b' :: J')]
    simp only [List.length_cons, Nat.add_sub_cancel] at hscan
    rw [hscan]
    have htake : List.take (J'.length + 1) ('\x7b' :: J') = '\x7b' :: J' := by
      rw [show J'.length + 1 = ('\x7b' :: J').length from (List.length_cons _ _).symm,
        List.take_length]
    show tryParseToolActionL (List.take (J'.length + 1) ('\x7b' :: J')) = some a
    rw [htake, hJ]
  unfold parseToolActionL
  rw [htrim]
  simp only [hwhole, hinc, if_true]
  have hrev : (braceIndices (p ++ '\x7b' :: J')).reverse =
      (braceIndicesFrom (p.length + 1) J').reverse ++
        p.length :: (braceIndices p).reverse := by
    rw [hbi]
    simp [List.reverse_append]
  rw [hrev, scanCandidates_append _ _ _ hbig]
  simp only [scanCandidates, hcand]

/-- C5 witness: the amended theorem applied to the specification's
embedded-extraction example, whose JSON part is brace-balanced and nests
no known-action object, so the route-weather action is extracted. -/
theorem c5_witness : parseToolAction c5ExampleText = some c5ExampleAction := by
  have hinner : ∀ i ∈ braceIndices (("Sure, one moment.\n").data ++ c5ExampleJson.data),
      ("Sure, one moment.\n").data.length < i →
      candidateAt (("Sure, one moment.\n").data ++ c5ExampleJson.data) i = none := by
    intro i hi hgt
    have hbi : braceIndices (("Sure, one moment.\n").data ++ c5ExampleJson.data) =
        [18, 53] := by decide
    rw [hbi] at hi
    have hlen : ("Sure, one moment.\n").data.length = 18 := by decide
    rw [hlen] at hgt
    rcases List.mem_cons.mp hi with h1 | h2
    · omega
    · rcases List.mem_cons.mp h2 with h3 | h4
      · subst h3; rfl
      · simp at h4
  have h := c5_embedded_extraction ("Sure, one moment.\n").data c5ExampleJson.data
    c5ExampleAction (by decide) rfl rfl rfl rfl rfl hinner
  show parseToolActionL c5ExampleText.data = some c5ExampleAction
  rw [show c5ExampleText.data =
    ("Sure, one moment.\n").data ++ c5ExampleJson.data from rfl]
  exact h

theorem multiGen_cons_ok (b : Backend) (bs : List Backend) (c : List ChatMsg) (r : String)
    (h : b.gen c = Except.ok r) :
    multiGenerateReply (b :: bs) c = (Except.ok r, [b.id]) := by
  cases bs with
  | nil => simp [multiGenerateReply, h]
  | cons b2 rest => simp [multiGenerateReply, h]

theorem multiGen_cons_err (b : Backend) (bs : List Backend) (c : List ChatMsg) (e : String)
    (hbs : bs ≠ []) (h : b.gen c = Except.error e) :
    multiGenerateReply (b :: bs) c =
      ((multiGenerateReply bs c).1, b.id :: (multiGenerateReply bs c).2) := by
  cases bs with
  | nil => exact absurd rfl hbs
  | cons b2 rest => simp [multiGenerateReply, h]

/-- C6: the failover chain attempts backends strictly in list order.  If
every backend of `pre` fails and `b` succeeds with `r`, the chain on
`pre ++ b :: post` returns `r` having attempted exactly `pre ++ [b]` (no
later backend).  If a non-empty chain fails everywhere, it propagates the
last backend's error having attempted every backend. -/
theorem c6_failover_chain (c : List ChatMsg) :
    (∀ pre b post r, (∀ q ∈ pre, exIsOk (q.gen c) = false) → b.gen c = Except.ok r →
      multiGenerateReply (pre ++ b :: post) c =
        (Except.ok r, (pre ++ [b]).map Backend.id)) ∧
    (∀ bs bl, bs.getLast? = some bl → (∀ q ∈ bs, exIsOk (q.gen c) = false) →
      multiGenerateReply bs c = (bl.gen c, bs.map Backend.id)) := by
  constructor
  · intro pre
    induction pre with
    | nil =>
      intro b post r _ hok
      rw [List.nil_append, multiGen_cons_ok b post c r hok]
      rfl
    | cons q pre' ih =>
      intro b post r hfail hok
      have hq : exIsOk (q.gen c) = false := hfail q (List.mem_cons_self q pre')
      obtain ⟨e, he⟩ : ∃ e, q.gen c = Except.error e := by
        cases hg : q.gen c with
        | ok v => rw [hg] at hq; simp [exIsOk] at hq
        | error e => exact ⟨e, rfl⟩
      have hrec := ih b post r (fun x hx => hfail x (List.mem_cons_of_mem q hx)) hok
      rw [List.cons_append, multiGen_cons_err q (pre' ++ b :: post) c e (by simp) he, hrec]
      simp
  · intro bs
    induction bs with
    | nil => intro bl h; simp at h
    | cons b rest ih =>
      intro bl hlast hfail
      have hb : exIsOk (b.gen c) = false := hfail b (List.mem_cons_self b rest)
      obtain ⟨e, he⟩ : ∃ e, b.gen c = Except.error e := by
        cases hg : b.gen c with
        | ok v => rw [hg] at hb; simp [exIsOk] at hb
        | error e2 => exact ⟨e2, rfl⟩
      cases rest with
      | nil =>
        simp only [List.getLast?_singleton, Option.some.injEq] at hlast
        subst hlast
        simp [multiGenerateReply, he]
      | cons b2 rest2 =>
        have hlast2 : (b2 :: rest2).getLast? = some bl := by
          rw [← hlast]; rfl
        have hrec := ih bl hlast2 (fun x hx => hfail x (List.mem_cons_of_mem b hx))
        rw [multiGen_cons_err b (b2 :: rest2) c e (by simp) he, hrec]
        simp

/-- C6 witness: three configured backends, the first two throwing and the
third answering `ok`: the chain returns `ok` after attempting exactly the
three backends, in priority order. -/
theorem c6_witness :
    multiGenerateReply [c6Backend1, c6Backend2, c6Backend3] [] =
      (Except.ok ("ok"), [("gemini"), ("openai"), ("mock")]) := by
  have hfail : ∀ q ∈ [c6Backend1, c6Backend2], exIsOk (q.gen []) = false := by
    intro q hq
    rcases List.mem_cons.mp hq with h1 | h2
    · subst h1; rfl
    · rcases List.mem_cons.mp h2 with h3 | h4
      · subst h3; rfl
      · simp at h4
  have h := (c6_failover_chain []).1 [c6Backend1, c6Backend2] c6Backend3 [] ("ok") hfail rfl
  simpa using h

/-- C7: each networked backend fails (rather than succeeding with a blank
string) whenever the extracted, trimmed reply text is empty — so an empty
reply counts as a failure for that backend in the failover chain. -/
theorem c7_blank_reply_is_failure :
    (∀ apiKey d, ((geminiRawText d).map trimS).getD ("") = "" →
      exIsOk (geminiGenerateReply apiKey d) = false) ∧
    (∀ apiKey d, openAiContent d = "" →
      exIsOk (openAiGenerateReply apiKey d) = false) ∧
    (∀ d, freeflowContent d = "" →
      exIsOk (freeflowGenerateReply d) = false) := by
  refine ⟨?_, ?_, ?_⟩
  · intro apiKey d h
    unfold geminiGenerateReply
    split_ifs <;> rfl
  · intro apiKey d h
    unfold openAiGenerateReply
    split_ifs <;> rfl
  · intro d h
    unfold freeflowGenerateReply
    split_ifs <;> rfl

/-- C7 witness: responses carrying no candidates, no choices, and no
reply field extract to blank text, and every client rejects them. -/
theorem c7_witness :
    exIsOk (geminiGenerateReply ("key") (GeminiData.mk none)) = false ∧
    exIsOk (openAiGenerateReply ("key") (OpenAiData.mk none)) = false ∧
    exIsOk (freeflowGenerateReply (FreeflowData.mk none)) = false :=
  ⟨c7_blank_reply_is_failure.1 ("key") (GeminiData.mk none) rfl,
   c7_blank_reply_is_failure.2.1 ("key") (OpenAiData.mk none) rfl,
   c7_blank_reply_is_failure.2.2 (FreeflowData.mk none) rfl⟩

/-- C8: when the Phase-1 reply parses to the `none` action, `handleChat`
discards that reply, performs exactly one further backend call on the
conversation built from the tool-instructions-free system prompt plus the
caller-supplied user messages (the Phase-1 assistant reply is absent from
it), dispatches no collaborator lookup, and returns the re-ask's reply
after stripping: the trace holds exactly the two backend calls. -/
theorem c8_none_action_reask (P : Prompts) (llm : List ChatMsg → Except String String)
    (C : Collaborators) (u : List ChatMsg) (r1 r2 : String) (ta : ToolActionV)
    (h1 : llm (phase1Conv P u) = Except.ok r1)
    (h2 : parseToolAction r1 = some ta)
    (h3 : ta.action = ActionId.aNone)
    (h4 : llm (nlConv P u) = Except.ok r2) :
    handleChatT P llm C (ChatRequest.mk (some u)) =
      (Except.ok (ChatReply.mk (stripToolJsonFromReply r2)),
       [ChatEvent.llmCall (phase1Conv P u), ChatEvent.llmCall (nlConv P u)]) := by
  cases ta with
  | mk act fields =>
    have h3' : act = ActionId.aNone := h3
    subst h3'
    simp only [handleChatT, Option.getD_some]
    rw [h1]
    simp only [h2]
    simp [finishNaturalLanguage, h4]

/-- C8 witness: a concrete oracle answering Phase 1 with the `none`
marker; the turn makes exactly the two backend calls and returns the
re-ask's prose. -/
theorem c8_witness :
    handleChatT c8P c8Llm quietCollab (ChatRequest.mk (some [])) =
      (Except.ok (ChatReply.mk ("Happy to help!")),
       [ChatEvent.llmCall (phase1Conv c8P []), ChatEvent.llmCall (nlConv c8P [])]) := by
  have h1 : c8Llm (phase1Conv c8P []) = Except.ok ("\x7b\"action\":\"none\"\x7d") := by
    simp [c8Llm]
  have h4 : c8Llm (nlConv c8P []) = Except.ok ("Happy to help!") := by
    simp only [c8Llm]
    rw [if_neg (by decide)]
  have h := c8_none_action_reask c8P c8Llm quietCollab [] ("\x7b\"action\":\"none\"\x7d")
    ("Happy to help!") (ToolActionV.mk ActionId.aNone [(actionKeyChars, JsonVal.jStr noneChars)])
    h1 rfl rfl h4
  have hs : stripToolJsonFromReply ("Happy to help!") = ("Happy to help!") := by decide
  rw [hs] at h
  exact h

theorem lastN_cons_of_le (n : Nat) (x : ChatMsg) (l : List ChatMsg) (h : n ≤ l.length) :
    lastN n (x :: l) = lastN n l := by
  unfold lastN
  simp only [List.length_cons]
  have heq : l.length + 1 - n = (l.length - n) + 1 := by omega
  rw [heq, List.drop_succ_cons]

theorem lastN_all (n : Nat) (l : List ChatMsg) (h : l.length ≤ n) : lastN n l = l := by
  unfold lastN
  rw [Nat.sub_eq_zero_of_le h, List.drop_zero]

/-- C9 counterexample: the claim states the Phase-1 conversation is the
system message exactly once at index 0 followed by the last twelve
history turns, with no duplication.  On a two-message history the window
`[msgs[0], ...msgs.slice(-12)]` re-includes the head, so the system
message also sits at index 1. -/
theorem c9_counterexample :
    phase1Conv c9P c9Short =
      sysToolsMsg c9P :: sysToolsMsg c9P :: c9Short ∧
    (phase1Conv c9P c9Short).get? 1 = some (sysToolsMsg c9P) := by
  exact ⟨rfl, rfl⟩

/-- C9 (amended): when the history holds at least `MAX_MESSAGES` (12)
turns, the Phase-1 conversation is the tools system message at index 0
followed by exactly the last twelve history turns (no duplication: when
the history contains no system-role message, neither does the window),
and the Phase-2 conversation is pinned and truncated the same way over
the history extended with the tool-result and grounding messages; for a
shorter history the system message is duplicated at indices 0 and 1,
followed by the entire history. -/
theorem c9_window_pinning (P : Prompts) (u : List ChatMsg) (summary : String) :
    (MAX_MESSAGES ≤ u.length → (∀ m ∈ u, m.role ≠ Role.system) →
      phase1Conv P u = sysToolsMsg P :: lastN MAX_MESSAGES u ∧
      (∀ m ∈ lastN MAX_MESSAGES u, m.role ≠ Role.system) ∧
      phase2Conv P u summary =
        sysBaseMsg P :: lastN MAX_MESSAGES
          (u ++ [ChatMsg.mk Role.assistant summary, ChatMsg.mk Role.user finalUserInstr])) ∧
    (u.length < MAX_MESSAGES →
      phase1Conv P u = sysToolsMsg P :: sysToolsMsg P :: u) := by
  constructor
  · intro h12 hroles
    refine ⟨?_, ?_, ?_⟩
    · unfold phase1Conv windowed
      rw [lastN_cons_of_le MAX_MESSAGES (sysToolsMsg P) u h12]
    · intro m hm
      exact hroles m (List.drop_subset _ u hm)
    · unfold phase2Conv windowed
      rw [lastN_cons_of_le MAX_MESSAGES (sysBaseMsg P) _ (by simp; omega)]
  · intro hlt
    unfold phase1Conv windowed
    rw [lastN_all MAX_MESSAGES (sysToolsMsg P :: u) (by simp; omega)]

/-- C9 witness: the amended statement applied to a twelve-message history
(exact window, no duplication) and to a one-message history (system
message duplicated). -/
theorem c9_witness :
    phase1Conv c9P c9LongU = sysToolsMsg c9P :: lastN MAX_MESSAGES c9LongU ∧
    phase1Conv c9P [ChatMsg.mk Role.user ("x")] =
      sysToolsMsg c9P :: sysToolsMsg c9P :: [ChatMsg.mk Role.user ("x")] := by
  constructor
  · exact (((c9_window_pinning c9P c9LongU ("s")).1 (by decide) (by decide))).1
  · exact (c9_window_pinning c9P [ChatMsg.mk Role.user ("x")] ("s")).2 (by decide)

/-- C10: a request with no `messages` field behaves exactly like one with
an empty message list; the Phase-1 conversation is then built from the
system prompt alone (it appears twice, at indices 0 and 1, per the window
quirk of C9); and, whenever the backend oracle always succeeds, the turn
returns a reply object rather than failing. -/
theorem c10_absent_messages_total (P : Prompts) (llm : List ChatMsg → Except String String)
    (C : Collaborators) :
    handleChatT P llm C (ChatRequest.mk none) =
      handleChatT P llm C (ChatRequest.mk (some [])) ∧
    phase1Conv P [] = [sysToolsMsg P, sysToolsMsg P] ∧
    ((∀ conv, ∃ s, llm conv = Except.ok s) →
      ∃ r evs, handleChatT P llm C (ChatRequest.mk none) = (Except.ok r, evs)) := by
  refine ⟨rfl, rfl, ?_⟩
  intro h
  obtain ⟨r1, h1⟩ := h (phase1Conv P [])
  simp only [handleChatT, Option.getD_none]
  simp only [h1]
  cases hp : parseToolAction r1 with
  | none =>
    simp only [hp]
    by_cases hj : looksLikeJson r1 = true
    · rw [if_pos hj]
      obtain ⟨r2, h2⟩ := h (nlConv P [])
      simp only [finishNaturalLanguage, h2]
      exact ⟨_, _, rfl⟩
    · rw [if_neg hj]
      exact ⟨_, _, rfl⟩
  | some ta =>
    simp only [hp]
    cases hact : ta.action with
    | aNone =>
      obtain ⟨r2, h2⟩ := h (nlConv P [])
      simp only [finishNaturalLanguage, h2]
      exact ⟨_, _, rfl⟩
    | aFlightStatus =>
      obtain ⟨r2, h2⟩ := h (phase2Conv P []
        ("TOOL_RESULT flight_status: " ++ (C.getFlightStatus (toolParams ta)).summary))
      simp only [finishPhase2, h2]
      exact ⟨_, _, rfl⟩
    | aRouteWeather =>
      obtain ⟨r2, h2⟩ := h (phase2Conv P []
        ("TOOL_RESULT route_weather: " ++ (C.getRouteWeather (toolParams ta)).summary))
      simp only [finishPhase2, h2]
      exact ⟨_, _, rfl⟩
    | aWeatherAtFlightArrival =>
      cases hap : (C.getFlightStatus (toolParams ta)).arrivalAirport with
      | none =>
        obtain ⟨r2, h2⟩ := h (phase2Conv P []
          ("TOOL_RESULT weather_at_flight_arrival: " ++
            (C.getFlightStatus (toolParams ta)).summary))
        simp only [hap, finishPhase2, h2]
        exact ⟨_, _, rfl⟩
      | some ap =>
        obtain ⟨r2, h2⟩ := h (phase2Conv P []
          ("TOOL_RESULT weather_at_flight_arrival: " ++
            (C.getFlightStatus (toolParams ta)).summary ++ " Weather at arrival (" ++ ap ++
            "): " ++ (C.getWeatherForPlace ap).summary))
        simp only [hap, finishPhase2, h2]
        exact ⟨_, _, rfl⟩

/-- C10 witness: with a total oracle, the no-messages request completes
with a reply object. -/
theorem c10_witness :
    ∃ r evs,
      handleChatT (Prompts.mk ("B") ("T")) (fun _ => Except.ok ("fine")) quietCollab
        (ChatRequest.mk none) = (Except.ok r, evs) :=
  (c10_absent_messages_total (Prompts.mk ("B") ("T")) (fun _ => Except.ok ("fine"))
    quietCollab).2.2 (fun _ => ⟨("fine"), rfl⟩)
